import Mathlib

/-!
Shallow embedding of `src/visual-code/runtime/vlig_semantic_guided_router.cpp`
(namespace `vc_vlig`): the prompt sanitizer, the keyword classifier bank, the
scene-plan assembler and the canonical JSON serializer.  Strings are modelled
as lists of byte values (`List Nat`); C++ exceptions become `Except`.
-/

namespace vc_vlig

/-- Byte values of a Lean string literal (all inputs of interest are ASCII,
where C++ bytes and code points coincide). -/
def bytes (s : String) : List Nat := s.toList.map Char.toNat

/-- `isAsciiPrintable` (source line 116): 32 <= u <= 126. -/
def isAsciiPrintable (c : Nat) : Bool := decide (32 ≤ c ∧ c ≤ 126)

/-- `stripControl` (lines 121-129): keep printable ASCII plus newline (10) and
tab (9), dropping every other byte, order preserved. -/
def stripControl (l : List Nat) : List Nat :=
  l.filter (fun c => isAsciiPrintable c || c == 10 || c == 9)

/-- The whitespace set of `collapseWhitespace`: space, tab, newline, CR. -/
def isWsp (c : Nat) : Bool := c == 32 || c == 9 || c == 10 || c == 13

/-- The loop of `collapseWhitespace` (lines 134-145), with the `space` flag
passed explicitly: a run of whitespace emits a single space. -/
def collapseLoop : List Nat → Bool → List Nat
  | [], _ => []
  | c :: rest, space =>
    if isWsp c then
      if space then collapseLoop rest true
      else 32 :: collapseLoop rest true
    else c :: collapseLoop rest false

/-- Lines 146-147: pop a trailing space if present. -/
def dropTrailingSpace (l : List Nat) : List Nat :=
  if l.getLast? = some 32 then l.dropLast else l

/-- `collapseWhitespace` (lines 131-149). -/
def collapseWhitespace (l : List Nat) : List Nat :=
  dropTrailingSpace (collapseLoop l false)

/-- `toLowerASCII` on one byte (lines 154-158). -/
def toLowerByte (c : Nat) : Nat := if 65 ≤ c ∧ c ≤ 90 then c + 32 else c

/-- `toLowerASCII` (lines 151-161). -/
def toLowerASCII (l : List Nat) : List Nat := l.map toLowerByte

/-- Position of the first occurrence of `t` in `l` (index of the match
start), scanning left to right; `none` when there is none.  This is
`std::string::find(t, 0)` restricted to the suffix handed to it. -/
def findIdx0 (t : List Nat) : List Nat → Option Nat
  | [] => if t.isPrefixOf ([] : List Nat) then some 0 else none
  | c :: rest =>
    if t.isPrefixOf (c :: rest) then some 0
    else (findIdx0 t rest).map (fun k => k + 1)

/-- `hay.find(t, start)` of `std::string`: the least position `p ≥ start`
where `t` occurs in `hay` (`none` for `npos`). -/
def findFrom (hay t : List Nat) (start : Nat) : Option Nat :=
  if start ≤ hay.length then (findIdx0 t (hay.drop start)).map (fun k => k + start)
  else none

/-- `hay.find(t) != npos`. -/
def containsSub (hay t : List Nat) : Bool := (findFrom hay t 0).isSome

/-- Overwrite positions `pos .. pos+len-1` of `l` with `*` (42), positions past
the end ignored — the masking for-loop of lines 176-179. -/
def maskRange : List Nat → Nat → Nat → List Nat
  | [], _, _ => []
  | c :: rest, pos, len =>
    if pos = 0 then
      if len = 0 then c :: rest
      else 42 :: maskRange rest 0 (len - 1)
    else c :: maskRange rest (pos - 1) len

/-- The while-loop of lines 173-181 for one blocklist token `t`: search the
lowercase buffer from `pos`, mask the match in both buffers, resume right
after the match end (`pos += t.size()`).  `fuel` only bounds the recursion;
`lower.length + 1` steps always suffice for a non-empty `t`. -/
def maskLoop : Nat → List Nat → Nat → List Nat → List Nat → List Nat × List Nat
  | 0, _, _, out, lower => (out, lower)
  | fuel + 1, t, pos, out, lower =>
    match findFrom lower t pos with
    | none => (out, lower)
    | some p =>
        maskLoop fuel t (p + t.length) (maskRange out p t.length)
          (maskRange lower p t.length)

/-- `kBlockList` (lines 165-167), in source order. -/
def kBlockList : List (List Nat) :=
  [bytes "nsfw", bytes "nude", bytes "nudity", bytes "porn",
   bytes "explicit", bytes "sexual", bytes "erotic"]

/-- The outer for-loop of lines 170-182 over the token list: state is the
pair (out, lower), both masked in lockstep. -/
def redactFold (ts : List (List Nat)) (st : List Nat × List Nat) : List Nat × List Nat :=
  ts.foldl (fun acc t => maskLoop (acc.2.length + 1) t 0 acc.1 acc.2) st

/-- `stripNSFWMarkers` generalized over the token list. -/
def stripTokens (ts : List (List Nat)) (s : List Nat) : List Nat :=
  (redactFold ts (s, toLowerASCII s)).1

/-- `stripNSFWMarkers` (lines 164-184). -/
def stripNSFWMarkers (s : List Nat) : List Nat := stripTokens kBlockList s

/-- The two exceptions of `sanitizePromptForVision`: `std::invalid_argument`
("empty prompt") and `std::runtime_error` ("prompt sanitized to empty"). -/
inductive SanitizeError where
  | InvalidInput
  | SanitizationExhausted
deriving DecidableEq

/-- `sanitizePromptForVision` (lines 186-197): reject an empty raw prompt,
strip control bytes, collapse whitespace, redact the blocklist, reject an
empty result, truncate to 8000 bytes. -/
def sanitizePromptForVision (raw : List Nat) : Except SanitizeError (List Nat) :=
  if raw = [] then Except.error SanitizeError.InvalidInput
  else
    let step3 := stripNSFWMarkers (collapseWhitespace (stripControl raw))
    if step3 = [] then Except.error SanitizeError.SanitizationExhausted
    else if 8000 < step3.length then Except.ok (step3.take 8000)
    else Except.ok step3

inductive VCIGMode where
  | TextToImage
  | ImageToImage
  | Inpaint
  | Outpaint
deriving DecidableEq

inductive VCQualityPreset where
  | Draft
  | Standard
  | High
  | Ultra
deriving DecidableEq

inductive VCSafetyProfile where
  | Safe
  | AllowNSFW
deriving DecidableEq

inductive VCColorTone where
  | Neutral
  | Warm
  | Cool
  | HighContrast
  | Pastel
deriving DecidableEq

inductive VCLighting where
  | Auto
  | Soft
  | Hard
  | Dramatic
  | Studio
deriving DecidableEq

inductive VCCameraAngle where
  | EyeLevel
  | LowAngle
  | HighAngle
  | TopDown
  | Isometric
  | CloseUp
  | WideShot
deriving DecidableEq

inductive VCArtStyle where
  | Unspecified
  | Photorealistic
  | DigitalPainting
  | Watercolor
  | Anime
  | LineArt
  | LowPoly
  | PixelArt
  | ConceptArt
deriving DecidableEq

inductive VCCompositionRule where
  | NoneRule
  | RuleOfThirds
  | Centered
  | GoldenRatio
  | Symmetric
  | LeadingLines
deriving DecidableEq

inductive VCAspectRatio where
  | Ratio_1_1
  | Ratio_16_9
  | Ratio_9_16
  | Ratio_4_3
  | Ratio_3_4
  | Ratio_21_9
deriving DecidableEq

inductive VCBrushDetail where
  | Auto
  | Minimal
  | Normal
  | High
  | Hyper
deriving DecidableEq

structure VCSubjectDescriptor where
  name : List Nat
  attributes : List Nat
  positionHint : List Nat
deriving DecidableEq

structure VCBackgroundDescriptor where
  environment : List Nat
  timeOfDay : List Nat
  weather : List Nat
deriving DecidableEq

structure VCColorLightingDescriptor where
  colorTone : VCColorTone
  lighting : VCLighting
  paletteHint : List Nat
deriving DecidableEq

structure VCCameraDescriptor where
  angle : VCCameraAngle
  focalLengthMM : ℚ
  depthOfField : Bool
deriving DecidableEq

structure VCCompositionDescriptor where
  rule : VCCompositionRule
  allowCropping : Bool
  centerMainSubject : Bool
deriving DecidableEq

structure VCArtStyleDescriptor where
  style : VCArtStyle
  brushDetail : VCBrushDetail
  eraHint : List Nat
deriving DecidableEq

structure VCNegativeConstraints where
  visualArtifacts : List Nat
  contentExclusions : List Nat
deriving DecidableEq

structure VCScenePlan where
  corePrompt : List Nat
  primarySubject : VCSubjectDescriptor
  secondarySubjects : List VCSubjectDescriptor
  background : VCBackgroundDescriptor
  colorLighting : VCColorLightingDescriptor
  camera : VCCameraDescriptor
  composition : VCCompositionDescriptor
  artStyle : VCArtStyleDescriptor
  negatives : VCNegativeConstraints
  aspectRatio : VCAspectRatio
  mode : VCIGMode
  safety : VCSafetyProfile
  quality : VCQualityPreset
deriving DecidableEq

/-- `guessAspectFromText` (lines 256-275). -/
def guessAspectFromText (lower : List Nat) : VCAspectRatio :=
  if containsSub lower (bytes "vertical") || containsSub lower (bytes "portrait") ||
      containsSub lower (bytes "9:16") then
    VCAspectRatio.Ratio_9_16
  else if containsSub lower (bytes "cinematic") || containsSub lower (bytes "wide") ||
      containsSub lower (bytes "16:9") || containsSub lower (bytes "21:9") then
    if containsSub lower (bytes "21:9") then VCAspectRatio.Ratio_21_9
    else VCAspectRatio.Ratio_16_9
  else if containsSub lower (bytes "4:3") then VCAspectRatio.Ratio_4_3
  else if containsSub lower (bytes "3:4") then VCAspectRatio.Ratio_3_4
  else VCAspectRatio.Ratio_1_1

/-- `guessArtStyle` (lines 277-310). -/
def guessArtStyle (lower : List Nat) : VCArtStyle :=
  if containsSub lower (bytes "photo") || containsSub lower (bytes "photoreal") ||
      containsSub lower (bytes "realistic") then
    VCArtStyle.Photorealistic
  else if containsSub lower (bytes "anime") || containsSub lower (bytes "manga") then
    VCArtStyle.Anime
  else if containsSub lower (bytes "watercolor") then VCArtStyle.Watercolor
  else if containsSub lower (bytes "pixel") then VCArtStyle.PixelArt
  else if containsSub lower (bytes "line art") || containsSub lower (bytes "sketch") then
    VCArtStyle.LineArt
  else if containsSub lower (bytes "low poly") || containsSub lower (bytes "low-poly") then
    VCArtStyle.LowPoly
  else if containsSub lower (bytes "concept art") || containsSub lower (bytes "key art") then
    VCArtStyle.ConceptArt
  else if containsSub lower (bytes "painting") ||
      containsSub lower (bytes "digital painting") then
    VCArtStyle.DigitalPainting
  else VCArtStyle.Unspecified

/-- `guessLighting` (lines 312-329). -/
def guessLighting (lower : List Nat) : VCLighting :=
  if containsSub lower (bytes "soft light") || containsSub lower (bytes "soft lighting") then
    VCLighting.Soft
  else if containsSub lower (bytes "dramatic") ||
      containsSub lower (bytes "cinematic light") then
    VCLighting.Dramatic
  else if containsSub lower (bytes "studio") || containsSub lower (bytes "three-point") then
    VCLighting.Studio
  else if containsSub lower (bytes "hard light") then VCLighting.Hard
  else VCLighting.Auto

/-- `guessColorTone` (lines 331-349). -/
def guessColorTone (lower : List Nat) : VCColorTone :=
  if containsSub lower (bytes "teal and orange") || containsSub lower (bytes "warm") ||
      containsSub lower (bytes "sunset") then
    VCColorTone.Warm
  else if containsSub lower (bytes "cool") || containsSub lower (bytes "blueish") then
    VCColorTone.Cool
  else if containsSub lower (bytes "pastel") then VCColorTone.Pastel
  else if containsSub lower (bytes "high contrast") || containsSub lower (bytes "noir") then
    VCColorTone.HighContrast
  else VCColorTone.Neutral

/-- `guessCameraAngle` (lines 351-376). -/
def guessCameraAngle (lower : List Nat) : VCCameraAngle :=
  if containsSub lower (bytes "top-down") || containsSub lower (bytes "top down") ||
      containsSub lower (bytes "bird's-eye") then
    VCCameraAngle.TopDown
  else if containsSub lower (bytes "close-up") || containsSub lower (bytes "close up") ||
      containsSub lower (bytes "portrait shot") then
    VCCameraAngle.CloseUp
  else if containsSub lower (bytes "wide shot") || containsSub lower (bytes "wide angle") then
    VCCameraAngle.WideShot
  else if containsSub lower (bytes "low angle") then VCCameraAngle.LowAngle
  else if containsSub lower (bytes "high angle") then VCCameraAngle.HighAngle
  else if containsSub lower (bytes "isometric") then VCCameraAngle.Isometric
  else VCCameraAngle.EyeLevel

/-- `guessComposition` (lines 378-392). -/
def guessComposition (lower : List Nat) : VCCompositionRule :=
  if containsSub lower (bytes "rule of thirds") then VCCompositionRule.RuleOfThirds
  else if containsSub lower (bytes "centered") || containsSub lower (bytes "symmetrical") ||
      containsSub lower (bytes "symmetry") then
    VCCompositionRule.Centered
  else if containsSub lower (bytes "golden ratio") then VCCompositionRule.GoldenRatio
  else if containsSub lower (bytes "leading lines") then VCCompositionRule.LeadingLines
  else if containsSub lower (bytes "symmetric") then VCCompositionRule.Symmetric
  else VCCompositionRule.NoneRule

/-- The delimiter set of `guessSubjectName`: space, comma, period, `!`, `?`. -/
def isDelim (c : Nat) : Bool := c == 32 || c == 44 || c == 46 || c == 33 || c == 63

/-- The tokenizer loop of lines 399-412: `cur` holds the current token with
its bytes reversed. -/
def tokenizeAux : List Nat → List Nat → List (List Nat)
  | [], cur => if cur = [] then [] else [cur.reverse]
  | c :: rest, cur =>
    if isDelim c then
      if cur = [] then tokenizeAux rest []
      else cur.reverse :: tokenizeAux rest []
    else tokenizeAux rest (c :: cur)

/-- The stop-word table of line 416. -/
def stopWords : List (List Nat) :=
  [bytes "a", bytes "an", bytes "the", bytes "of", bytes "in", bytes "on",
   bytes "with", bytes "at", bytes "to", bytes "for"]

/-- `guessSubjectName` (lines 395-429): lowercase, tokenize, and return the
last token that is not a stop word (the last token at all if every token is a
stop word; the literal "subject" if there is no token). -/
def guessSubjectName (prompt : List Nat) : List Nat :=
  let tokens := tokenizeAux (toLowerASCII prompt) []
  if tokens = [] then bytes "subject"
  else
    match tokens.reverse.find? (fun tk => decide (¬ tk ∈ stopWords)) with
    | some tk => tk
    | none => tokens.getLastD []

/-- `buildScenePlanFromPrompt` (lines 432-501); the sanitizer's exception
propagates as the `Except.error` case. -/
def buildScenePlanFromPrompt (rawPrompt : List Nat) (igMode : VCIGMode)
    (safety : VCSafetyProfile) (quality : VCQualityPreset) :
    Except SanitizeError VCScenePlan :=
  match sanitizePromptForVision rawPrompt with
  | Except.error e => Except.error e
  | Except.ok core =>
    let lower := toLowerASCII core
    Except.ok
      { corePrompt := core
        mode := igMode
        safety := safety
        quality := quality
        aspectRatio := guessAspectFromText lower
        artStyle :=
          { style := guessArtStyle lower
            brushDetail := VCBrushDetail.Normal
            eraHint := [] }
        colorLighting :=
          { colorTone := guessColorTone lower
            lighting := guessLighting lower
            paletteHint := [] }
        camera :=
          { angle := guessCameraAngle lower
            focalLengthMM := 35
            depthOfField := guessCameraAngle lower = VCCameraAngle.CloseUp }
        composition :=
          { rule := guessComposition lower
            allowCropping := true
            centerMainSubject := true }
        primarySubject :=
          { name := guessSubjectName core
            attributes := []
            positionHint := bytes "center" }
        background :=
          { environment :=
              if containsSub lower (bytes "forest") then bytes "forest"
              else if containsSub lower (bytes "city") then bytes "city"
              else if containsSub lower (bytes "space") || containsSub lower (bytes "galaxy") ||
                  containsSub lower (bytes "nebula") then bytes "space"
              else if containsSub lower (bytes "beach") || containsSub lower (bytes "ocean") ||
                  containsSub lower (bytes "sea") then bytes "seaside"
              else []
            timeOfDay :=
              if containsSub lower (bytes "sunset") then bytes "sunset"
              else if containsSub lower (bytes "night") then bytes "night"
              else if containsSub lower (bytes "dawn") || containsSub lower (bytes "sunrise") then
                bytes "dawn"
              else []
            weather :=
              if containsSub lower (bytes "rain") then bytes "rainy"
              else if containsSub lower (bytes "fog") || containsSub lower (bytes "mist") then
                bytes "foggy"
              else if containsSub lower (bytes "snow") then bytes "snowy"
              else [] }
        negatives :=
          { visualArtifacts := bytes "blurry, extra limbs, distorted faces, text artifacts"
            contentExclusions := bytes "no gore, no real-world logos" }
        secondarySubjects := [] }

/-- `jsonEscape` on one byte (the switch of lines 507-519, in source case
order): quote, backslash, newline, CR and tab escape; any other byte below 32
is dropped; everything else passes through. -/
def escByte (c : Nat) : List Nat :=
  if c = 34 then [92, 34]
  else if c = 92 then [92, 92]
  else if c = 10 then [92, 110]
  else if c = 13 then [92, 114]
  else if c = 9 then [92, 116]
  else if c < 32 then []
  else [c]

/-- `jsonEscape` (lines 503-522). -/
def jsonEscape (l : List Nat) : List Nat := (l.map escByte).flatten

/-- `toString(VCAspectRatio)` (lines 524-534). -/
def toStringAspect : VCAspectRatio → List Nat
  | VCAspectRatio.Ratio_1_1 => bytes "1:1"
  | VCAspectRatio.Ratio_16_9 => bytes "16:9"
  | VCAspectRatio.Ratio_9_16 => bytes "9:16"
  | VCAspectRatio.Ratio_4_3 => bytes "4:3"
  | VCAspectRatio.Ratio_3_4 => bytes "3:4"
  | VCAspectRatio.Ratio_21_9 => bytes "21:9"

/-- `toString(VCIGMode)` (lines 536-544). -/
def toStringMode : VCIGMode → List Nat
  | VCIGMode.TextToImage => bytes "text-to-image"
  | VCIGMode.ImageToImage => bytes "image-to-image"
  | VCIGMode.Inpaint => bytes "inpaint"
  | VCIGMode.Outpaint => bytes "outpaint"

/-- `toString(VCSafetyProfile)` (lines 546-552). -/
def toStringSafety : VCSafetyProfile → List Nat
  | VCSafetyProfile.Safe => bytes "safe"
  | VCSafetyProfile.AllowNSFW => bytes "allow-nsfw"

/-- `toString(VCQualityPreset)` (lines 554-562). -/
def toStringQuality : VCQualityPreset → List Nat
  | VCQualityPreset.Draft => bytes "draft"
  | VCQualityPreset.Standard => bytes "standard"
  | VCQualityPreset.High => bytes "high"
  | VCQualityPreset.Ultra => bytes "ultra"

/-- `toString(VCColorTone)` (lines 564-573). -/
def toStringTone : VCColorTone → List Nat
  | VCColorTone.Neutral => bytes "neutral"
  | VCColorTone.Warm => bytes "warm"
  | VCColorTone.Cool => bytes "cool"
  | VCColorTone.HighContrast => bytes "high-contrast"
  | VCColorTone.Pastel => bytes "pastel"

/-- `toString(VCLighting)` (lines 575-584). -/
def toStringLighting : VCLighting → List Nat
  | VCLighting.Auto => bytes "auto"
  | VCLighting.Soft => bytes "soft"
  | VCLighting.Hard => bytes "hard"
  | VCLighting.Dramatic => bytes "dramatic"
  | VCLighting.Studio => bytes "studio"

/-- `toString(VCCameraAngle)` (lines 586-597). -/
def toStringAngle : VCCameraAngle → List Nat
  | VCCameraAngle.EyeLevel => bytes "eye-level"
  | VCCameraAngle.LowAngle => bytes "low-angle"
  | VCCameraAngle.HighAngle => bytes "high-angle"
  | VCCameraAngle.TopDown => bytes "top-down"
  | VCCameraAngle.Isometric => bytes "isometric"
  | VCCameraAngle.CloseUp => bytes "close-up"
  | VCCameraAngle.WideShot => bytes "wide-shot"

/-- `toString(VCCompositionRule)` (lines 599-609). -/
def toStringRule : VCCompositionRule → List Nat
  | VCCompositionRule.NoneRule => bytes "none"
  | VCCompositionRule.RuleOfThirds => bytes "rule-of-thirds"
  | VCCompositionRule.Centered => bytes "centered"
  | VCCompositionRule.GoldenRatio => bytes "golden-ratio"
  | VCCompositionRule.Symmetric => bytes "symmetric"
  | VCCompositionRule.LeadingLines => bytes "leading-lines"

/-- `toString(VCArtStyle)` (lines 611-624). -/
def toStringStyle : VCArtStyle → List Nat
  | VCArtStyle.Unspecified => bytes "unspecified"
  | VCArtStyle.Photorealistic => bytes "photorealistic"
  | VCArtStyle.DigitalPainting => bytes "digital-painting"
  | VCArtStyle.Watercolor => bytes "watercolor"
  | VCArtStyle.Anime => bytes "anime"
  | VCArtStyle.LineArt => bytes "line-art"
  | VCArtStyle.LowPoly => bytes "low-poly"
  | VCArtStyle.PixelArt => bytes "pixel-art"
  | VCArtStyle.ConceptArt => bytes "concept-art"

/-- `toString(VCBrushDetail)` (lines 626-635). -/
def toStringDetail : VCBrushDetail → List Nat
  | VCBrushDetail.Auto => bytes "auto"
  | VCBrushDetail.Minimal => bytes "minimal"
  | VCBrushDetail.Normal => bytes "normal"
  | VCBrushDetail.High => bytes "high"
  | VCBrushDetail.Hyper => bytes "hyper"

/-- Decimal digits of `n`, most significant first, as ASCII bytes. -/
def natDecimal (n : Nat) : List Nat := (Nat.toDigits 10 n).map Char.toNat

/-- Models `std::to_string` on a non-negative `float` value: `%f`, i.e. the
value printed with exactly six decimal places.  The only value this program
ever serializes is 35.0, where every float rounding convention agrees. -/
def formatFixed6 (x : ℚ) : List Nat :=
  let scaled : Nat := (Rat.floor (x * 1000000 + 1 / 2)).toNat
  natDecimal (scaled / 1000000) ++ [46] ++
    List.replicate (6 - (natDecimal (scaled % 1000000)).length) 48 ++
    natDecimal (scaled % 1000000)

/-- One `{"name":…,"attributes":…,"position_hint":…}` subject object, as the
serializer writes it both for the primary subject (lines 649-653) and for
each secondary subject (lines 657-666). -/
def serializeSubject (s : VCSubjectDescriptor) : List Nat :=
  bytes "\x7b" ++
  bytes "\"name\":\"" ++ jsonEscape s.name ++ bytes "\"," ++
  bytes "\"attributes\":\"" ++ jsonEscape s.attributes ++ bytes "\"," ++
  bytes "\"position_hint\":\"" ++ jsonEscape s.positionHint ++ bytes "\"" ++
  bytes "\x7d"

/-- The comma separation of the secondary-subjects loop (lines 657-666). -/
def joinComma : List (List Nat) → List Nat
  | [] => []
  | [x] => x
  | x :: y :: rest => x ++ [44] ++ joinComma (y :: rest)

/-- `serializeScenePlanToJSON` (lines 637-712), chunk for chunk. -/
def serializeScenePlanToJSON (p : VCScenePlan) : List Nat :=
  bytes "\x7b" ++
  bytes "\"core_prompt\":\"" ++ jsonEscape p.corePrompt ++ bytes "\"," ++
  bytes "\"mode\":\"" ++ toStringMode p.mode ++ bytes "\"," ++
  bytes "\"safety_profile\":\"" ++ toStringSafety p.safety ++ bytes "\"," ++
  bytes "\"quality_preset\":\"" ++ toStringQuality p.quality ++ bytes "\"," ++
  bytes "\"aspect_ratio\":\"" ++ toStringAspect p.aspectRatio ++ bytes "\"," ++
  bytes "\"primary_subject\":" ++ serializeSubject p.primarySubject ++ bytes "," ++
  bytes "\"secondary_subjects\":[" ++
    joinComma (p.secondarySubjects.map serializeSubject) ++ bytes "]," ++
  bytes "\"background\":\x7b" ++
  bytes "\"environment\":\"" ++ jsonEscape p.background.environment ++ bytes "\"," ++
  bytes "\"time_of_day\":\"" ++ jsonEscape p.background.timeOfDay ++ bytes "\"," ++
  bytes "\"weather\":\"" ++ jsonEscape p.background.weather ++ bytes "\"" ++
  bytes "\x7d," ++
  bytes "\"color_lighting\":\x7b" ++
  bytes "\"color_tone\":\"" ++ toStringTone p.colorLighting.colorTone ++ bytes "\"," ++
  bytes "\"lighting\":\"" ++ toStringLighting p.colorLighting.lighting ++ bytes "\"," ++
  bytes "\"palette_hint\":\"" ++ jsonEscape p.colorLighting.paletteHint ++ bytes "\"" ++
  bytes "\x7d," ++
  bytes "\"camera\":\x7b" ++
  bytes "\"angle\":\"" ++ toStringAngle p.camera.angle ++ bytes "\"," ++
  bytes "\"focal_length_mm\":" ++ formatFixed6 p.camera.focalLengthMM ++ bytes "," ++
  bytes "\"depth_of_field\":" ++
    (if p.camera.depthOfField then bytes "true" else bytes "false") ++
  bytes "\x7d," ++
  bytes "\"composition\":\x7b" ++
  bytes "\"rule\":\"" ++ toStringRule p.composition.rule ++ bytes "\"," ++
  bytes "\"allow_cropping\":" ++
    (if p.composition.allowCropping then bytes "true" else bytes "false") ++ bytes "," ++
  bytes "\"center_main_subject\":" ++
    (if p.composition.centerMainSubject then bytes "true" else bytes "false") ++
  bytes "\x7d," ++
  bytes "\"art_style\":\x7b" ++
  bytes "\"style\":\"" ++ toStringStyle p.artStyle.style ++ bytes "\"," ++
  bytes "\"brush_detail\":\"" ++ toStringDetail p.artStyle.brushDetail ++ bytes "\"," ++
  bytes "\"era_hint\":\"" ++ jsonEscape p.artStyle.eraHint ++ bytes "\"" ++
  bytes "\x7d," ++
  bytes "\"negative_constraints\":\x7b" ++
  bytes "\"visual_artifacts\":\"" ++ jsonEscape p.negatives.visualArtifacts ++ bytes "\"," ++
  bytes "\"content_exclusions\":\"" ++ jsonEscape p.negatives.contentExclusions ++ bytes "\"" ++
  bytes "\x7d" ++
  bytes "\x7d"

/-- `VCSemanticIGResult` (lines 714-717). -/
structure VCSemanticIGResult where
  scene : VCScenePlan
  jsonControl : List Nat
deriving DecidableEq

/-- `BuildSemanticIGSpec` (lines 720-728), the high-level entry point; a
sanitizer exception propagates as the error case. -/
def BuildSemanticIGSpec (userPrompt : List Nat) (mode : VCIGMode)
    (safety : VCSafetyProfile) (quality : VCQualityPreset) :
    Except SanitizeError VCSemanticIGResult :=
  match buildScenePlanFromPrompt userPrompt mode safety quality with
  | Except.error e => Except.error e
  | Except.ok plan =>
    Except.ok { scene := plan, jsonControl := serializeScenePlanToJSON plan }

instance {ε α : Type} [DecidableEq ε] [DecidableEq α] : DecidableEq (Except ε α) := by
  intro a b
  cases a <;> cases b
  case error.error e f =>
    exact if h : e = f then isTrue (by rw [h]) else isFalse (by simp [h])
  case error.ok e x => exact isFalse (fun hh => Except.noConfusion hh)
  case ok.error x e => exact isFalse (fun hh => Except.noConfusion hh)
  case ok.ok x y =>
    exact if h : x = y then isTrue (by rw [h]) else isFalse (by simp [h])

/-- Observation instrumenting one match: does the span of a match found at
`p` in the lowercase buffer contain a position already masked with 42? -/
def matchTouchesMask (lower t : List Nat) (p : Nat) : Bool :=
  (List.range t.length).any (fun i => lower.getD (p + i) 0 == 42)

/-- `maskLoop` extended with the flag `ev`, set when a found match includes a
position of the lowercase buffer already holding 42. -/
def maskLoopEv : Nat → List Nat → Nat → List Nat → List Nat → Bool →
    List Nat × List Nat × Bool
  | 0, _, _, out, lower, ev => (out, lower, ev)
  | fuel + 1, t, pos, out, lower, ev =>
    match findFrom lower t pos with
    | none => (out, lower, ev)
    | some p =>
        maskLoopEv fuel t (p + t.length) (maskRange out p t.length)
          (maskRange lower p t.length) (ev || matchTouchesMask lower t p)

/-- Whether, over the whole run of `stripNSFWMarkers` on `s`, any match of
any blocklist term includes a position already masked with 42 — the event the
claim asserts occurs for some inputs. -/
def rescanHitsMask (s : List Nat) : Bool :=
  (kBlockList.foldl
    (fun (acc : List Nat × List Nat × Bool) t =>
      maskLoopEv (acc.2.1.length + 1) t 0 acc.1 acc.2.1 acc.2.2)
    (s, toLowerASCII s, false)).2.2

/-- The escaping table as the specification words it, clause for clause:
backslash to backslash-backslash, double quote to backslash-quote, newline to
backslash-n, CR to backslash-r, tab to backslash-t, any other byte below 0x20
dropped, every other byte passed through unchanged. -/
def escByteSpec (c : Nat) : List Nat :=
  if c = 92 then [92, 92]
  else if c = 34 then [92, 34]
  else if c = 10 then [92, 110]
  else if c = 13 then [92, 114]
  else if c = 9 then [92, 116]
  else if c < 32 then []
  else [c]

/-- The specification's string escaping, applied byte by byte. -/
def jsonEscapeSpec (l : List Nat) : List Nat := (l.map escByteSpec).flatten

/-- A subject object rendered with the specification's escaping. -/
def serializeSubjectSpec (s : VCSubjectDescriptor) : List Nat :=
  bytes "\x7b" ++
  bytes "\"name\":\"" ++ jsonEscapeSpec s.name ++ bytes "\"," ++
  bytes "\"attributes\":\"" ++ jsonEscapeSpec s.attributes ++ bytes "\"," ++
  bytes "\"position_hint\":\"" ++ jsonEscapeSpec s.positionHint ++ bytes "\"" ++
  bytes "\x7d"

/-- The canonical serialization as §4.4 of the specification describes it: a
single JSON object in the exact key order core_prompt, mode, safety_profile,
quality_preset, aspect_ratio, primary_subject, secondary_subjects,
background, color_lighting, camera, composition, art_style,
negative_constraints; strings escaped by `jsonEscapeSpec`, booleans rendered
as the literal tokens true/false, and enums rendered through the fixed
lowercase-hyphenated string tables. -/
def serializeSpecJSON (p : VCScenePlan) : List Nat :=
  bytes "\x7b" ++
  bytes "\"core_prompt\":\"" ++ jsonEscapeSpec p.corePrompt ++ bytes "\"," ++
  bytes "\"mode\":\"" ++ toStringMode p.mode ++ bytes "\"," ++
  bytes "\"safety_profile\":\"" ++ toStringSafety p.safety ++ bytes "\"," ++
  bytes "\"quality_preset\":\"" ++ toStringQuality p.quality ++ bytes "\"," ++
  bytes "\"aspect_ratio\":\"" ++ toStringAspect p.aspectRatio ++ bytes "\"," ++
  bytes "\"primary_subject\":" ++ serializeSubjectSpec p.primarySubject ++ bytes "," ++
  bytes "\"secondary_subjects\":[" ++
    joinComma (p.secondarySubjects.map serializeSubjectSpec) ++ bytes "]," ++
  bytes "\"background\":\x7b" ++
  bytes "\"environment\":\"" ++ jsonEscapeSpec p.background.environment ++ bytes "\"," ++
  bytes "\"time_of_day\":\"" ++ jsonEscapeSpec p.background.timeOfDay ++ bytes "\"," ++
  bytes "\"weather\":\"" ++ jsonEscapeSpec p.background.weather ++ bytes "\"" ++
  bytes "\x7d," ++
  bytes "\"color_lighting\":\x7b" ++
  bytes "\"color_tone\":\"" ++ toStringTone p.colorLighting.colorTone ++ bytes "\"," ++
  bytes "\"lighting\":\"" ++ toStringLighting p.colorLighting.lighting ++ bytes "\"," ++
  bytes "\"palette_hint\":\"" ++ jsonEscapeSpec p.colorLighting.paletteHint ++ bytes "\"" ++
  bytes "\x7d," ++
  bytes "\"camera\":\x7b" ++
  bytes "\"angle\":\"" ++ toStringAngle p.camera.angle ++ bytes "\"," ++
  bytes "\"focal_length_mm\":" ++ formatFixed6 p.camera.focalLengthMM ++ bytes "," ++
  bytes "\"depth_of_field\":" ++
    (if p.camera.depthOfField then bytes "true" else bytes "false") ++
  bytes "\x7d," ++
  bytes "\"composition\":\x7b" ++
  bytes "\"rule\":\"" ++ toStringRule p.composition.rule ++ bytes "\"," ++
  bytes "\"allow_cropping\":" ++
    (if p.composition.allowCropping then bytes "true" else bytes "false") ++ bytes "," ++
  bytes "\"center_main_subject\":" ++
    (if p.composition.centerMainSubject then bytes "true" else bytes "false") ++
  bytes "\x7d," ++
  bytes "\"art_style\":\x7b" ++
  bytes "\"style\":\"" ++ toStringStyle p.artStyle.style ++ bytes "\"," ++
  bytes "\"brush_detail\":\"" ++ toStringDetail p.artStyle.brushDetail ++ bytes "\"," ++
  bytes "\"era_hint\":\"" ++ jsonEscapeSpec p.artStyle.eraHint ++ bytes "\"" ++
  bytes "\x7d," ++
  bytes "\"negative_constraints\":\x7b" ++
  bytes "\"visual_artifacts\":\"" ++ jsonEscapeSpec p.negatives.visualArtifacts ++ bytes "\"," ++
  bytes "\"content_exclusions\":\"" ++ jsonEscapeSpec p.negatives.contentExclusions ++ bytes "\"" ++
  bytes "\x7d" ++
  bytes "\x7d"

/-- An occurrence of `t` in `l` starting at index `k`. -/
def OccAt (t l : List Nat) (k : Nat) : Prop := t.isPrefixOf (l.drop k) = true

/-- `cur` is `orig` with some positions overwritten by 42, nothing else:
same length, and pointwise either unchanged or 42. -/
def MaskedOf (orig cur : List Nat) : Prop :=
  cur.length = orig.length ∧ ∀ i : Nat, cur[i]? = orig[i]? ∨ cur[i]? = some 42

/-! ### Helper lemmas -/

lemma maskRange_length (l : List Nat) : ∀ p n, (maskRange l p n).length = l.length := by
  induction l with
  | nil => intro p n; rfl
  | cons c rest ih =>
    intro p n
    by_cases hp : p = 0
    · by_cases hn : n = 0
      · simp [maskRange, hp, hn]
      · simp [maskRange, hp, hn, ih]
    · simp [maskRange, hp, ih]

lemma maskRange_getElem? (l : List Nat) : ∀ p n j,
    (maskRange l p n)[j]? =
      if p ≤ j ∧ j < p + n then (l[j]?).map (fun _ => 42) else l[j]? := by
  induction l with
  | nil => intro p n j; simp [maskRange]
  | cons c rest ih =>
    intro p n j
    by_cases hp : p = 0
    · subst hp
      by_cases hn : n = 0
      · subst hn
        rw [if_neg (by omega : ¬ ((0:Nat) ≤ j ∧ j < 0 + 0))]
        simp [maskRange]
      · rcases j with _ | j'
        · have h0 : (maskRange (c :: rest) 0 n)[(0:Nat)]? = some 42 := by
            simp [maskRange, hn]
          rw [h0, if_pos (by omega : (0:Nat) ≤ 0 ∧ 0 < 0 + n)]
          simp
        · have e1 : (maskRange (c :: rest) 0 n)[j' + 1]? = (maskRange rest 0 (n - 1))[j']? := by
            simp [maskRange, hn]
          rw [e1, ih 0 (n - 1) j']
          have e2 : ((c :: rest) : List Nat)[j' + 1]? = rest[j']? := by simp
          rw [e2]
          split_ifs with h1 h2 h2 <;> first | rfl | omega
    · rcases j with _ | j'
      · have h0 : (maskRange (c :: rest) p n)[(0:Nat)]? = some c := by
          simp [maskRange, hp]
        rw [h0, if_neg (by omega : ¬ (p ≤ 0 ∧ (0:Nat) < p + n))]
        simp
      · have e1 : (maskRange (c :: rest) p n)[j' + 1]? = (maskRange rest (p - 1) n)[j']? := by
          simp [maskRange, hp]
        rw [e1, ih (p - 1) n j']
        have e2 : ((c :: rest) : List Nat)[j' + 1]? = rest[j']? := by simp
        rw [e2]
        split_ifs with h1 h2 h2 <;> first | rfl | omega


lemma isPrefixOf_iff_getElem? (t : List Nat) : ∀ m : List Nat,
    t.isPrefixOf m = true ↔ t.length ≤ m.length ∧ ∀ i < t.length, m[i]? = t[i]? := by
  induction t with
  | nil => intro m; simp [List.isPrefixOf]
  | cons a as ih =>
    intro m
    cases m with
    | nil => simp [List.isPrefixOf]
    | cons b bs =>
      simp only [List.isPrefixOf, Bool.and_eq_true, beq_iff_eq, ih bs]
      constructor
      · rintro ⟨hab, hlen, hpt⟩
        refine ⟨by simpa using hlen, ?_⟩
        intro i hi
        cases i with
        | zero => simp [hab]
        | succ i' =>
          simp only [List.getElem?_cons_succ]
          exact hpt i' (by simpa using hi)
      · rintro ⟨hlen, hpt⟩
        have h0 := hpt 0 (by simp)
        simp only [List.getElem?_cons_zero, Option.some.injEq] at h0
        refine ⟨h0.symm ▸ rfl, by simpa using hlen, ?_⟩
        intro i hi
        have := hpt (i + 1) (by simpa using hi)
        simpa using this

lemma findIdx0_some_occ (t : List Nat) : ∀ l k, findIdx0 t l = some k →
    t.isPrefixOf (l.drop k) = true := by
  intro l
  induction l with
  | nil =>
    intro k h
    simp only [findIdx0] at h
    split_ifs at h with hpre
    cases h; simpa using hpre
  | cons c rest ih =>
    intro k h
    simp only [findIdx0] at h
    split_ifs at h with hpre
    · cases h; simpa using hpre
    · rcases Option.map_eq_some'.1 h with ⟨k', hk', rfl⟩
      simpa using ih k' hk'

lemma findIdx0_some_min (t : List Nat) : ∀ l k, findIdx0 t l = some k →
    ∀ j < k, t.isPrefixOf (l.drop j) = false := by
  intro l
  induction l with
  | nil =>
    intro k h j hj
    simp only [findIdx0] at h
    split_ifs at h with hpre
    cases h; omega
  | cons c rest ih =>
    intro k h j hj
    simp only [findIdx0] at h
    split_ifs at h with hpre
    · cases h; omega
    · rcases Option.map_eq_some'.1 h with ⟨k', hk', rfl⟩
      cases j with
      | zero => simpa using Bool.of_not_eq_true hpre
      | succ j' => simpa using ih k' hk' j' (by omega)

lemma findIdx0_none (t : List Nat) (ht : t ≠ []) : ∀ l, findIdx0 t l = none →
    ∀ k, t.isPrefixOf (l.drop k) = false := by
  intro l
  induction l with
  | nil =>
    intro h k
    rcases t with _ | ⟨a, as⟩
    · exact absurd rfl ht
    · simp [List.isPrefixOf]
  | cons c rest ih =>
    intro h k
    simp only [findIdx0] at h
    split_ifs at h with hpre
    have h2 : findIdx0 t rest = none := Option.map_eq_none'.1 h
    cases k with
    | zero => simpa using Bool.of_not_eq_true hpre
    | succ k' => simpa using ih h2 k'

lemma findFrom_some (hay t : List Nat) (s p : Nat) (h : findFrom hay t s = some p) :
    s ≤ p ∧ t.isPrefixOf (hay.drop p) = true ∧
      ∀ j, s ≤ j → j < p → t.isPrefixOf (hay.drop j) = false := by
  simp only [findFrom] at h
  split_ifs at h with hs
  rcases Option.map_eq_some'.1 h with ⟨k, hk, rfl⟩
  refine ⟨by omega, ?_, ?_⟩
  · have hocc := findIdx0_some_occ t (hay.drop s) k hk
    rw [List.drop_drop] at hocc
    have he : s + k = k + s := Nat.add_comm s k
    rwa [he] at hocc
  · intro j hsj hjp
    have hmin := findIdx0_some_min t (hay.drop s) k hk (j - s) (by omega)
    rw [List.drop_drop] at hmin
    have he : s + (j - s) = j := by omega
    rwa [he] at hmin

lemma findFrom_none (hay t : List Nat) (s : Nat) (ht : t ≠ [])
    (h : findFrom hay t s = none) :
    ∀ j, s ≤ j → t.isPrefixOf (hay.drop j) = false := by
  intro j hsj
  simp only [findFrom] at h
  split_ifs at h with hs
  · have h2 : findIdx0 t (hay.drop s) = none := Option.map_eq_none'.1 h
    have hmin := findIdx0_none t ht (hay.drop s) h2 (j - s)
    rw [List.drop_drop] at hmin
    have he : s + (j - s) = j := by omega
    rwa [he] at hmin
  · have hj : hay.length ≤ j := by omega
    rw [List.drop_eq_nil_of_le hj]
    rcases t with _ | ⟨a, as⟩
    · exact absurd rfl ht
    · simp [List.isPrefixOf]

lemma occAt_iff (t l : List Nat) (k : Nat) (ht : t ≠ []) :
    OccAt t l k ↔ k + t.length ≤ l.length ∧ ∀ i < t.length, l[k + i]? = t[i]? := by
  unfold OccAt
  rw [isPrefixOf_iff_getElem? t (l.drop k)]
  constructor
  · rintro ⟨hlen, hpt⟩
    have hlen2 : t.length ≤ l.length - k := by simpa using hlen
    have hk : k ≤ l.length := by
      by_contra hk
      have hz : l.length - k = 0 := by omega
      rw [hz] at hlen2
      have : t.length = 0 := by omega
      exact ht (List.eq_nil_of_length_eq_zero this)
    refine ⟨by omega, ?_⟩
    intro i hi
    have := hpt i hi
    rwa [List.getElem?_drop] at this
  · rintro ⟨hlen, hpt⟩
    refine ⟨by simp; omega, ?_⟩
    intro i hi
    rw [List.getElem?_drop]
    exact hpt i hi

lemma containsSub_false_iff (l t : List Nat) (ht : t ≠ []) :
    containsSub l t = false ↔ ∀ k, ¬ OccAt t l k := by
  unfold containsSub
  constructor
  · intro h k hocc
    cases hf : findFrom l t 0 with
    | none =>
      have hfalse := findFrom_none l t 0 ht hf k (by omega)
      unfold OccAt at hocc
      rw [hfalse] at hocc
      cases hocc
    | some p => rw [hf] at h; simp at h
  · intro h
    cases hf : findFrom l t 0 with
    | none => rfl
    | some p =>
      have := (findFrom_some l t 0 p hf).2.1
      exact absurd this (h p)


lemma occAt_maskRange (u l : List Nat) (p n k : Nat) (hu : u ≠ [])
    (h42 : ∀ x ∈ u, x ≠ 42) (hn : 0 < n)
    (hocc : OccAt u (maskRange l p n) k) :
    OccAt u l k ∧ (k + u.length ≤ p ∨ p + n ≤ k) := by
  rw [occAt_iff u _ k hu, maskRange_length] at hocc
  obtain ⟨hlen, hpt⟩ := hocc
  have hout : ∀ i < u.length, ¬ (p ≤ k + i ∧ k + i < p + n) := by
    intro i hi hrange
    have h1 := hpt i hi
    rw [maskRange_getElem?, if_pos hrange] at h1
    have hki : k + i < l.length := by omega
    rw [List.getElem?_eq_getElem hki, List.getElem?_eq_getElem hi] at h1
    simp only [Option.map_some', Option.some.injEq] at h1
    exact h42 (u[i]) (List.getElem_mem hi) h1.symm
  constructor
  · rw [occAt_iff u l k hu]
    refine ⟨hlen, ?_⟩
    intro i hi
    have h1 := hpt i hi
    rwa [maskRange_getElem?, if_neg (hout i hi)] at h1
  · by_contra hcon
    push_neg at hcon
    obtain ⟨h4, h5⟩ := hcon
    by_cases hpk : p ≤ k
    · exact hout 0 (List.length_pos.2 hu) ⟨by omega, by omega⟩
    · exact hout (p - k) (by omega) ⟨by omega, by omega⟩

lemma maskLoop_snd_length (t : List Nat) : ∀ fuel pos out lower,
    (maskLoop fuel t pos out lower).2.length = lower.length := by
  intro fuel
  induction fuel with
  | zero => intro pos out lower; rfl
  | succ f ih =>
    intro pos out lower
    cases hf : findFrom lower t pos with
    | none => simp [maskLoop, hf]
    | some p => simp [maskLoop, hf, ih, maskRange_length]

lemma maskLoop_no_occ (t : List Nat) (ht : t ≠ []) (h42 : ∀ x ∈ t, x ≠ 42) :
    ∀ fuel pos out lower, lower.length + 1 ≤ fuel + pos →
      (∀ k, k < pos → ¬ OccAt t lower k) →
      ∀ k, ¬ OccAt t (maskLoop fuel t pos out lower).2 k := by
  intro fuel
  induction fuel with
  | zero =>
    intro pos out lower hfuel hinv k hocc
    simp only [maskLoop] at hocc
    have hlen := ((occAt_iff t lower k ht).1 hocc).1
    have htl : 0 < t.length := List.length_pos.2 ht
    exact hinv k (by omega) hocc
  | succ f ih =>
    intro pos out lower hfuel hinv k
    cases hf : findFrom lower t pos with
    | none =>
      simp only [maskLoop, hf]
      intro hocc
      by_cases hk : k < pos
      · exact hinv k hk hocc
      · have hfalse := findFrom_none lower t pos ht hf k (by omega)
        unfold OccAt at hocc
        rw [hfalse] at hocc
        cases hocc
    | some p =>
      simp only [maskLoop, hf]
      obtain ⟨hsp, hoccp, hmin⟩ := findFrom_some lower t pos p hf
      have hplen : p + t.length ≤ lower.length := ((occAt_iff t lower p ht).1 hoccp).1
      have htl : 0 < t.length := List.length_pos.2 ht
      apply ih (p + t.length) (maskRange out p t.length) (maskRange lower p t.length)
      · rw [maskRange_length]; omega
      · intro k' hk' hocc'
        obtain ⟨hocc0, hdis⟩ := occAt_maskRange t lower p t.length k' ht h42 htl hocc'
        rcases hdis with hdis | hdis
        · by_cases hkpos : k' < pos
          · exact hinv k' hkpos hocc0
          · have hfalse := hmin k' (by omega) (by omega)
            unfold OccAt at hocc0
            rw [hfalse] at hocc0
            cases hocc0
        · omega

lemma maskLoop_preserves (u : List Nat) (hu : u ≠ []) (h42 : ∀ x ∈ u, x ≠ 42)
    (t : List Nat) (ht : t ≠ []) :
    ∀ fuel pos out lower, (∀ k, ¬ OccAt u lower k) →
      ∀ k, ¬ OccAt u (maskLoop fuel t pos out lower).2 k := by
  intro fuel
  induction fuel with
  | zero => intro pos out lower h k; simpa [maskLoop] using h k
  | succ f ih =>
    intro pos out lower h k
    cases hf : findFrom lower t pos with
    | none => simp only [maskLoop, hf]; exact h k
    | some p =>
      simp only [maskLoop, hf]
      apply ih
      intro k' hocc'
      have htl : 0 < t.length := List.length_pos.2 ht
      obtain ⟨hocc0, _⟩ := occAt_maskRange u lower p t.length k' hu h42 htl hocc'
      exact h k' hocc0

lemma toLowerByte_42 : toLowerByte 42 = 42 := by decide

lemma toLower_maskRange (l : List Nat) : ∀ p n,
    toLowerASCII (maskRange l p n) = maskRange (toLowerASCII l) p n := by
  induction l with
  | nil => intro p n; rfl
  | cons c rest ih =>
    intro p n
    by_cases hp : p = 0
    · by_cases hn : n = 0
      · simp [maskRange, hp, hn, toLowerASCII]
      · simp only [toLowerASCII] at ih ⊢
        simp [maskRange, hp, hn, toLowerByte_42, ih]
    · simp only [toLowerASCII] at ih ⊢
      simp [maskRange, hp, ih]

lemma maskLoop_lockstep (t : List Nat) :
    ∀ fuel pos out lower, lower = toLowerASCII out →
      (maskLoop fuel t pos out lower).2 = toLowerASCII (maskLoop fuel t pos out lower).1 := by
  intro fuel
  induction fuel with
  | zero => intro pos out lower h; simpa [maskLoop] using h
  | succ f ih =>
    intro pos out lower h
    cases hf : findFrom lower t pos with
    | none => simp only [maskLoop, hf]; exact h
    | some p =>
      simp only [maskLoop, hf]
      apply ih
      rw [h, toLower_maskRange]

lemma redactFold_cons (t : List Nat) (ts : List (List Nat)) (st : List Nat × List Nat) :
    redactFold (t :: ts) st =
      redactFold ts (maskLoop (st.2.length + 1) t 0 st.1 st.2) := rfl

lemma redactFold_lockstep (ts : List (List Nat)) :
    ∀ st : List Nat × List Nat, st.2 = toLowerASCII st.1 →
      (redactFold ts st).2 = toLowerASCII (redactFold ts st).1 := by
  induction ts with
  | nil => intro st h; exact h
  | cons t ts ih =>
    intro st h
    rw [redactFold_cons]
    exact ih _ (maskLoop_lockstep t (st.2.length + 1) 0 st.1 st.2 h)

lemma redactFold_preserves (u : List Nat) (hu : u ≠ []) (h42 : ∀ x ∈ u, x ≠ 42)
    (ts : List (List Nat)) (hts : ∀ t ∈ ts, t ≠ []) :
    ∀ st : List Nat × List Nat, (∀ k, ¬ OccAt u st.2 k) →
      ∀ k, ¬ OccAt u (redactFold ts st).2 k := by
  induction ts with
  | nil => intro st h k; exact h k
  | cons t ts ih =>
    intro st h k
    rw [redactFold_cons]
    refine ih (fun t' ht' => hts t' (List.mem_cons_of_mem t ht')) _ ?_ k
    intro k'
    exact maskLoop_preserves u hu h42 t (hts t (List.mem_cons_self t ts))
      (st.2.length + 1) 0 st.1 st.2 h k'

lemma redactFold_clears (ts : List (List Nat))
    (hts : ∀ t ∈ ts, t ≠ [] ∧ (∀ x ∈ t, x ≠ 42)) :
    ∀ st : List Nat × List Nat, ∀ t ∈ ts, ∀ k, ¬ OccAt t (redactFold ts st).2 k := by
  induction ts with
  | nil =>
    intro st t ht
    cases ht
  | cons t0 ts ih =>
    intro st t ht k
    rw [redactFold_cons]
    rcases List.mem_cons.1 ht with rfl | hmem
    · obtain ⟨ht0, h42⟩ := hts t (List.mem_cons_self t ts)
      refine redactFold_preserves t ht0 h42 ts
        (fun t' ht' => (hts t' (List.mem_cons_of_mem t ht')).1) _ ?_ k
      intro k'
      refine maskLoop_no_occ t ht0 h42 (st.2.length + 1) 0 st.1 st.2 (by omega) ?_ k'
      intro k'' hk''
      exact absurd hk'' (Nat.not_lt_zero k'')
    · exact ih (fun t' ht' => hts t' (List.mem_cons_of_mem t0 ht')) _ t hmem k

lemma blocklist_tokens_sound : ∀ t ∈ kBlockList, t ≠ [] ∧ (∀ x ∈ t, x ≠ 42) := by
  decide

lemma stripNSFWMarkers_no_occ (s t : List Nat) (ht : t ∈ kBlockList) :
    ∀ k, ¬ OccAt t (toLowerASCII (stripNSFWMarkers s)) k := by
  intro k
  have hlock := redactFold_lockstep kBlockList (s, toLowerASCII s) rfl
  have hclear := redactFold_clears kBlockList blocklist_tokens_sound
    (s, toLowerASCII s) t ht k
  rw [stripNSFWMarkers, stripTokens, ← hlock]
  exact hclear

lemma occAt_take (t l : List Nat) (n k : Nat) (ht : t ≠ [])
    (h : OccAt t (l.take n) k) : OccAt t l k := by
  rw [occAt_iff t _ k ht] at h
  obtain ⟨hlen, hpt⟩ := h
  rw [List.length_take] at hlen
  have hmin : k + t.length ≤ min n l.length := hlen
  rw [occAt_iff t l k ht]
  refine ⟨by omega, ?_⟩
  intro i hi
  have h1 := hpt i hi
  rw [List.getElem?_take, if_pos (by omega)] at h1
  exact h1

lemma maskedOf_refl (l : List Nat) : MaskedOf l l := ⟨rfl, fun _ => Or.inl rfl⟩

lemma maskedOf_maskRange (orig cur : List Nat) (h : MaskedOf orig cur) (p n : Nat) :
    MaskedOf orig (maskRange cur p n) := by
  obtain ⟨hlen, hpt⟩ := h
  refine ⟨by rw [maskRange_length, hlen], ?_⟩
  intro i
  rw [maskRange_getElem?]
  split_ifs with hc
  · cases hcur : cur[i]? with
    | none =>
      left
      rw [Option.map_none']
      rcases hpt i with h1 | h1
      · rw [hcur] at h1; exact h1
      · rw [hcur] at h1; cases h1
    | some v =>
      right
      rw [Option.map_some']
  · exact hpt i

lemma maskLoop_fst_maskedOf (t : List Nat) :
    ∀ fuel pos out lower o0, MaskedOf o0 out →
      MaskedOf o0 (maskLoop fuel t pos out lower).1 := by
  intro fuel
  induction fuel with
  | zero => intro pos out lower o0 h; simpa [maskLoop] using h
  | succ f ih =>
    intro pos out lower o0 h
    cases hf : findFrom lower t pos with
    | none => simpa [maskLoop, hf] using h
    | some p =>
      simp only [maskLoop, hf]
      exact ih _ _ _ o0 (maskedOf_maskRange o0 out h p t.length)

lemma redactFold_fst_maskedOf (ts : List (List Nat)) :
    ∀ st : List Nat × List Nat, ∀ o0, MaskedOf o0 st.1 →
      MaskedOf o0 (redactFold ts st).1 := by
  induction ts with
  | nil => intro st o0 h; exact h
  | cons t ts ih =>
    intro st o0 h
    rw [redactFold_cons]
    exact ih _ o0 (maskLoop_fst_maskedOf t (st.2.length + 1) 0 st.1 st.2 o0 h)

lemma stripNSFWMarkers_maskedOf (s : List Nat) : MaskedOf s (stripNSFWMarkers s) := by
  rw [stripNSFWMarkers, stripTokens]
  exact redactFold_fst_maskedOf kBlockList (s, toLowerASCII s) s (maskedOf_refl s)

lemma mem_of_maskedOf (orig cur : List Nat) (h : MaskedOf orig cur) (c : Nat)
    (hc : c ∈ cur) : c = 42 ∨ c ∈ orig := by
  rcases List.mem_iff_getElem?.1 hc with ⟨i, hi⟩
  rcases h.2 i with h1 | h1
  · right
    exact List.mem_iff_getElem?.2 ⟨i, by rw [← h1]; exact hi⟩
  · left
    rw [h1] at hi
    exact (Option.some.inj hi).symm

/-- The shape invariant of `collapseWhitespace` output: every whitespace byte
is a plain space, and no two spaces are adjacent. -/
def goodCW : List Nat → Prop
  | [] => True
  | c :: rest => (isWsp c = true → c = 32) ∧ (c = 32 → rest.head? ≠ some 32) ∧ goodCW rest

lemma mem_collapseLoop (l : List Nat) : ∀ b c, c ∈ collapseLoop l b → c = 32 ∨ c ∈ l := by
  induction l with
  | nil => intro b c h; cases h
  | cons d rest ih =>
    intro b c h
    simp only [collapseLoop] at h
    split_ifs at h with hd hb
    · rcases ih true c h with h1 | h1
      · exact Or.inl h1
      · exact Or.inr (List.mem_cons_of_mem d h1)
    · rcases List.mem_cons.1 h with rfl | h1
      · exact Or.inl rfl
      · rcases ih true c h1 with h2 | h2
        · exact Or.inl h2
        · exact Or.inr (List.mem_cons_of_mem d h2)
    · rcases List.mem_cons.1 h with rfl | h1
      · exact Or.inr (List.mem_cons.2 (Or.inl rfl))
      · rcases ih false c h1 with h2 | h2
        · exact Or.inl h2
        · exact Or.inr (List.mem_cons_of_mem d h2)

lemma mem_dropTrailingSpace (l : List Nat) (c : Nat) (h : c ∈ dropTrailingSpace l) :
    c ∈ l := by
  unfold dropTrailingSpace at h
  split_ifs at h
  · exact (List.dropLast_sublist l).subset h
  · exact h

lemma collapseLoop_good (l : List Nat) : ∀ b,
    goodCW (collapseLoop l b) ∧ (b = true → (collapseLoop l b).head? ≠ some 32) := by
  induction l with
  | nil =>
    intro b
    exact ⟨trivial, fun _ => by simp [collapseLoop]⟩
  | cons c rest ih =>
    intro b
    by_cases hc : isWsp c = true
    · cases b with
      | true =>
        have he : collapseLoop (c :: rest) true = collapseLoop rest true := by
          simp [collapseLoop, hc]
        rw [he]
        exact ⟨(ih true).1, fun _ => (ih true).2 rfl⟩
      | false =>
        have he : collapseLoop (c :: rest) false = 32 :: collapseLoop rest true := by
          simp [collapseLoop, hc]
        rw [he]
        refine ⟨?_, fun hb => by cases hb⟩
        exact ⟨fun _ => rfl, fun _ => (ih true).2 rfl, (ih true).1⟩
    · have hc32 : c ≠ 32 := by
        intro hce
        rw [hce] at hc
        exact hc (by decide)
      have he : collapseLoop (c :: rest) b = c :: collapseLoop rest false := by
        simp [collapseLoop, hc]
      rw [he]
      refine ⟨⟨fun hw => absurd hw hc, fun hce => absurd hce hc32, (ih false).1⟩, ?_⟩
      intro _
      simp only [List.head?_cons, ne_eq, Option.some.injEq]
      exact hc32

lemma collapseLoop_id (t : List Nat) (h : goodCW t) :
    collapseLoop t false = t ∧ (t.head? ≠ some 32 → collapseLoop t true = t) := by
  induction t with
  | nil => exact ⟨rfl, fun _ => rfl⟩
  | cons c rest ih =>
    obtain ⟨h1, h2, h3⟩ := h
    obtain ⟨ihf, iht⟩ := ih h3
    constructor
    · by_cases hc : isWsp c = true
      · have hc32 : c = 32 := h1 hc
        subst hc32
        have hrest := iht (h2 rfl)
        have hw : isWsp 32 = true := by decide
        simp [collapseLoop, hw, hrest]
      · simp [collapseLoop, hc, ihf]
    · intro hhead
      have hc32 : c ≠ 32 := by
        intro he
        exact hhead (by rw [he]; rfl)
      have hc : ¬ isWsp c = true := fun hw => hc32 (h1 hw)
      simp [collapseLoop, hc, ihf]

lemma goodCW_dropLast (l : List Nat) (h : goodCW l) : goodCW l.dropLast := by
  induction l with
  | nil => exact trivial
  | cons c rest ih =>
    obtain ⟨h1, h2, h3⟩ := h
    cases rest with
    | nil => exact trivial
    | cons d rest' =>
      have he : (c :: d :: rest').dropLast = c :: (d :: rest').dropLast := rfl
      rw [he]
      refine ⟨h1, ?_, ih h3⟩
      intro hc32
      cases rest' with
      | nil => simp
      | cons e rest'' =>
        have he2 : (d :: e :: rest'').dropLast = d :: (e :: rest'').dropLast := rfl
        rw [he2]
        simp only [List.head?_cons, ne_eq, Option.some.injEq]
        have hd := h2 hc32
        simp only [List.head?_cons, ne_eq, Option.some.injEq] at hd
        exact hd

lemma dropLast_getLast_ne (l : List Nat) (h : goodCW l) (hl : l.getLast? = some 32) :
    l.dropLast.getLast? ≠ some 32 := by
  induction l with
  | nil => simp at hl
  | cons c rest ih =>
    obtain ⟨h1, h2, h3⟩ := h
    cases rest with
    | nil => simp
    | cons d rest' =>
      rw [List.getLast?_cons_cons] at hl
      have hrec := ih h3 hl
      cases rest' with
      | nil =>
        have hd : d = 32 := by simpa using hl
        have hc : c ≠ 32 := by
          intro hce
          exact (h2 hce) (by simp [hd])
        simpa using hc
      | cons e rest'' =>
        have e1 : (c :: d :: e :: rest'').dropLast = c :: d :: (e :: rest'').dropLast := rfl
        rw [e1, List.getLast?_cons_cons]
        have e2 : (d :: e :: rest'').dropLast = d :: (e :: rest'').dropLast := rfl
        rw [e2] at hrec
        exact hrec

lemma dropTrailingSpace_eq_self (l : List Nat) (h : l.getLast? ≠ some 32) :
    dropTrailingSpace l = l := by
  unfold dropTrailingSpace
  rw [if_neg h]

lemma collapseWhitespace_idem (s : List Nat) :
    collapseWhitespace (collapseWhitespace s) = collapseWhitespace s := by
  have hg := (collapseLoop_good s false).1
  have hgood_t : goodCW (dropTrailingSpace (collapseLoop s false)) := by
    unfold dropTrailingSpace
    split_ifs with hlast
    · exact goodCW_dropLast _ hg
    · exact hg
  have hlast_t : (dropTrailingSpace (collapseLoop s false)).getLast? ≠ some 32 := by
    unfold dropTrailingSpace
    split_ifs with hlast
    · exact dropLast_getLast_ne _ hg hlast
    · exact hlast
  calc collapseWhitespace (collapseWhitespace s)
      = dropTrailingSpace (collapseLoop (dropTrailingSpace (collapseLoop s false)) false) := rfl
    _ = dropTrailingSpace (dropTrailingSpace (collapseLoop s false)) := by
        rw [(collapseLoop_id _ hgood_t).1]
    _ = dropTrailingSpace (collapseLoop s false) := dropTrailingSpace_eq_self _ hlast_t
    _ = collapseWhitespace s := rfl

lemma sanitize_eq (raw : List Nat) (h1 : raw ≠ []) :
    sanitizePromptForVision raw =
      (if stripNSFWMarkers (collapseWhitespace (stripControl raw)) = []
       then Except.error SanitizeError.SanitizationExhausted
       else if 8000 < (stripNSFWMarkers (collapseWhitespace (stripControl raw))).length
       then Except.ok ((stripNSFWMarkers (collapseWhitespace (stripControl raw))).take 8000)
       else Except.ok (stripNSFWMarkers (collapseWhitespace (stripControl raw)))) := by
  unfold sanitizePromptForVision
  rw [if_neg h1]

lemma sanitize_cases (raw : List Nat) :
    (raw = [] ∧ sanitizePromptForVision raw = Except.error SanitizeError.InvalidInput)
    ∨ (raw ≠ [] ∧ stripNSFWMarkers (collapseWhitespace (stripControl raw)) = []
        ∧ sanitizePromptForVision raw = Except.error SanitizeError.SanitizationExhausted)
    ∨ (raw ≠ [] ∧ stripNSFWMarkers (collapseWhitespace (stripControl raw)) ≠ []
        ∧ sanitizePromptForVision raw =
            Except.ok ((stripNSFWMarkers (collapseWhitespace (stripControl raw))).take 8000)) := by
  by_cases h1 : raw = []
  · left
    refine ⟨h1, ?_⟩
    unfold sanitizePromptForVision
    rw [if_pos h1]
  · by_cases h2 : stripNSFWMarkers (collapseWhitespace (stripControl raw)) = []
    · right; left
      refine ⟨h1, h2, ?_⟩
      rw [sanitize_eq raw h1, if_pos h2]
    · right; right
      refine ⟨h1, h2, ?_⟩
      rw [sanitize_eq raw h1, if_neg h2]
      by_cases h3 : 8000 < (stripNSFWMarkers (collapseWhitespace (stripControl raw))).length
      · rw [if_pos h3]
      · rw [if_neg h3, List.take_of_length_le (by omega)]

lemma sanitize_ok_eq (raw r : List Nat) (h : sanitizePromptForVision raw = Except.ok r) :
    r = (stripNSFWMarkers (collapseWhitespace (stripControl raw))).take 8000 := by
  rcases sanitize_cases raw with ⟨_, he⟩ | ⟨_, _, he⟩ | ⟨_, _, he⟩
  · rw [he] at h; exact Except.noConfusion h
  · rw [he] at h; exact Except.noConfusion h
  · rw [he] at h
    exact (Except.ok.inj h).symm

set_option maxHeartbeats 8000000

lemma mem_stripControl (raw : List Nat) (c : Nat) (h : c ∈ stripControl raw) :
    (32 ≤ c ∧ c ≤ 126) ∨ c = 9 ∨ c = 10 := by
  rw [stripControl, List.mem_filter] at h
  obtain ⟨_, hp⟩ := h
  simp only [isAsciiPrintable, Bool.or_eq_true, beq_iff_eq, decide_eq_true_eq] at hp
  tauto

/-- C1: sanitize fails with InvalidInput exactly on the empty raw prompt; on a
non-empty prompt it fails with SanitizationExhausted exactly when the composed
strip-control / collapse-whitespace / redact-blocklist result is empty; on
either failure the pipeline produces no scene plan and no JSON (the plan
builder and the top-level entry point return the same error); otherwise
sanitize returns the processed (truncated) string. -/
theorem sanitize_error_contract (raw : List Nat) :
    (sanitizePromptForVision raw = Except.error SanitizeError.InvalidInput ↔ raw = [])
    ∧ (raw ≠ [] →
        (sanitizePromptForVision raw = Except.error SanitizeError.SanitizationExhausted
          ↔ stripNSFWMarkers (collapseWhitespace (stripControl raw)) = []))
    ∧ (∀ e m sa q, sanitizePromptForVision raw = Except.error e →
        buildScenePlanFromPrompt raw m sa q = Except.error e
          ∧ BuildSemanticIGSpec raw m sa q = Except.error e)
    ∧ (∀ r, sanitizePromptForVision raw = Except.ok r →
        r = (stripNSFWMarkers (collapseWhitespace (stripControl raw))).take 8000) := by
  refine ⟨?_, ?_, ?_, fun r h => sanitize_ok_eq raw r h⟩
  · constructor
    · intro h
      rcases sanitize_cases raw with ⟨h1, _⟩ | ⟨h1, _, he⟩ | ⟨h1, _, he⟩
      · exact h1
      · rw [he] at h
        have h2 := Except.error.inj h
        cases h2
      · rw [he] at h
        exact Except.noConfusion h
    · intro h
      unfold sanitizePromptForVision
      rw [if_pos h]
  · intro h1
    constructor
    · intro h
      by_contra h2
      rcases sanitize_cases raw with ⟨he1, _⟩ | ⟨_, he2, _⟩ | ⟨_, he2, he⟩
      · exact h1 he1
      · exact h2 he2
      · rw [he] at h
        exact Except.noConfusion h
    · intro h2
      rw [sanitize_eq raw h1, if_pos h2]
  · intro e m sa q h
    constructor
    · unfold buildScenePlanFromPrompt
      rw [h]
    · unfold BuildSemanticIGSpec buildScenePlanFromPrompt
      rw [h]

/-- C5: blocklist redaction preserves byte length and positions, changing a
byte only by overwriting it with an asterisk (42); matching is
case-insensitive, as on the concrete input "a NUDE cat". -/
theorem redact_preserves_length_and_positions (s : List Nat) :
    (stripNSFWMarkers s).length = s.length
    ∧ (∀ i : Nat, (stripNSFWMarkers s)[i]? = s[i]? ∨ (stripNSFWMarkers s)[i]? = some 42)
    ∧ stripNSFWMarkers (bytes "a NUDE cat") = bytes "a **** cat" := by
  obtain ⟨hlen, hpt⟩ := stripNSFWMarkers_maskedOf s
  exact ⟨hlen, hpt, by decide⟩

/-- C6: every successfully sanitized core prompt is non-empty, at most 8000
bytes long, and contains only printable ASCII, tab or newline bytes. -/
theorem core_prompt_invariants (raw r : List Nat)
    (h : sanitizePromptForVision raw = Except.ok r) :
    r ≠ [] ∧ r.length ≤ 8000 ∧ ∀ c ∈ r, (32 ≤ c ∧ c ≤ 126) ∨ c = 9 ∨ c = 10 := by
  rcases sanitize_cases raw with ⟨_, he⟩ | ⟨_, _, he⟩ | ⟨_, hne, he⟩
  · rw [he] at h; exact Except.noConfusion h
  · rw [he] at h; exact Except.noConfusion h
  · have hr : r = (stripNSFWMarkers (collapseWhitespace (stripControl raw))).take 8000 := by
      rw [he] at h
      exact (Except.ok.inj h).symm
    rw [hr]
    refine ⟨?_, ?_, ?_⟩
    · intro hnil
      rw [List.take_eq_nil_iff] at hnil
      rcases hnil with h8 | hstep
      · cases h8
      · exact hne hstep
    · rw [List.length_take]
      exact min_le_left _ _
    · intro c hc
      have hc2 : c ∈ stripNSFWMarkers (collapseWhitespace (stripControl raw)) :=
        List.take_subset _ _ hc
      rcases mem_of_maskedOf _ _ (stripNSFWMarkers_maskedOf _) c hc2 with h42 | hc3
      · subst h42
        left
        exact ⟨by omega, by omega⟩
      · rcases mem_collapseLoop _ false c (mem_dropTrailingSpace _ c hc3) with h32 | hc5
        · subst h32
          left
          exact ⟨by omega, by omega⟩
        · exact mem_stripControl raw c hc5

theorem core_prompt_invariants_witness :
    bytes "hi" ≠ [] ∧ (bytes "hi").length ≤ 8000 ∧
      ∀ c ∈ bytes "hi", (32 ≤ c ∧ c ≤ 126) ∨ c = 9 ∨ c = 10 :=
  core_prompt_invariants (bytes "hi") (bytes "hi") (by decide)

/-- C8: the pipeline is a pure function of (raw prompt, mode, safety,
quality): two runs on identical inputs return identical results — the same
ScenePlan record and the same JSON control string, or the identical error. -/
theorem pipeline_deterministic (raw : List Nat) (m : VCIGMode) (sa : VCSafetyProfile)
    (q : VCQualityPreset) (r1 r2 : Except SanitizeError VCSemanticIGResult)
    (h1 : BuildSemanticIGSpec raw m sa q = r1) (h2 : BuildSemanticIGSpec raw m sa q = r2) :
    r1 = r2 := h1.symm.trans h2

theorem pipeline_deterministic_witness :
    BuildSemanticIGSpec (bytes "cat") VCIGMode.TextToImage VCSafetyProfile.Safe
        VCQualityPreset.Draft =
      BuildSemanticIGSpec (bytes "cat") VCIGMode.TextToImage VCSafetyProfile.Safe
        VCQualityPreset.Draft :=
  pipeline_deterministic (bytes "cat") VCIGMode.TextToImage VCSafetyProfile.Safe
    VCQualityPreset.Draft _ _ rfl rfl

/-- C9: strip_control and collapse_whitespace are idempotent. -/
theorem sanitizer_stages_idempotent (s : List Nat) :
    collapseWhitespace (collapseWhitespace s) = collapseWhitespace s
    ∧ stripControl (stripControl s) = stripControl s := by
  refine ⟨collapseWhitespace_idem s, ?_⟩
  unfold stripControl
  apply List.filter_eq_self.2
  intro a ha
  exact (List.mem_filter.1 ha).2

/-- C10: after redaction no blocklist term occurs (case-insensitively) in the
output, and the same holds for every successfully sanitized prompt after
truncation: masking writes only asterisks into both buffers, so no surviving
or newly created occurrence remains. -/
theorem no_blocklist_term_survives (s raw r t : List Nat) (ht : t ∈ kBlockList) :
    containsSub (toLowerASCII (stripNSFWMarkers s)) t = false
    ∧ (sanitizePromptForVision raw = Except.ok r →
        containsSub (toLowerASCII r) t = false) := by
  have htne : t ≠ [] := (blocklist_tokens_sound t ht).1
  constructor
  · rw [containsSub_false_iff _ t htne]
    exact stripNSFWMarkers_no_occ s t ht
  · intro hok
    have hr := sanitize_ok_eq raw r hok
    rw [hr, containsSub_false_iff _ t htne]
    intro k hocc
    have he : toLowerASCII ((stripNSFWMarkers (collapseWhitespace (stripControl raw))).take 8000)
        = (toLowerASCII (stripNSFWMarkers (collapseWhitespace (stripControl raw)))).take 8000 := by
      unfold toLowerASCII
      rw [List.map_take]
    rw [he] at hocc
    exact stripNSFWMarkers_no_occ (collapseWhitespace (stripControl raw)) t ht k
      (occAt_take t _ 8000 k htne hocc)

theorem no_blocklist_term_survives_witness :
    containsSub (toLowerASCII (stripNSFWMarkers (bytes "a nude cat"))) (bytes "nude") = false
    ∧ (sanitizePromptForVision (bytes "a nude cat") = Except.ok (bytes "a **** cat") →
        containsSub (toLowerASCII (bytes "a **** cat")) (bytes "nude") = false) :=
  no_blocklist_term_survives (bytes "a nude cat") (bytes "a nude cat") (bytes "a **** cat")
    (bytes "nude") (by decide)

lemma matchTouchesMask_false (lower t : List Nat) (pos p : Nat) (ht : t ≠ [])
    (h42 : ∀ x ∈ t, x ≠ 42) (hf : findFrom lower t pos = some p) :
    matchTouchesMask lower t p = false := by
  unfold matchTouchesMask
  rw [List.any_eq_false]
  intro i hi
  rw [List.mem_range] at hi
  have hocc := (findFrom_some lower t pos p hf).2.1
  obtain ⟨hlen, hpt⟩ := (occAt_iff t lower p ht).1 hocc
  have h1 := hpt i hi
  rw [List.getD_eq_getElem?_getD, h1, List.getElem?_eq_getElem hi, Option.getD_some]
  simp only [beq_iff_eq]
  exact h42 (t.get ⟨i, hi⟩) (List.getElem_mem hi)

lemma maskLoopEv_no_hit (t : List Nat) (ht : t ≠ []) (h42 : ∀ x ∈ t, x ≠ 42) :
    ∀ fuel pos out lower, (maskLoopEv fuel t pos out lower false).2.2 = false := by
  intro fuel
  induction fuel with
  | zero => intro pos out lower; rfl
  | succ f ih =>
    intro pos out lower
    cases hf : findFrom lower t pos with
    | none => simp [maskLoopEv, hf]
    | some p =>
      simp only [maskLoopEv, hf]
      rw [matchTouchesMask_false lower t pos p ht h42 hf]
      simpa using ih (p + t.length) (maskRange out p t.length) (maskRange lower p t.length)

lemma rescanHitsMask_false (s : List Nat) : rescanHitsMask s = false := by
  unfold rescanHitsMask
  suffices h : ∀ ts : List (List Nat), (∀ t ∈ ts, t ≠ [] ∧ ∀ x ∈ t, x ≠ 42) →
      ∀ st : List Nat × List Nat × Bool, st.2.2 = false →
      (ts.foldl (fun acc t => maskLoopEv (acc.2.1.length + 1) t 0 acc.1 acc.2.1 acc.2.2)
        st).2.2 = false by
    exact h kBlockList blocklist_tokens_sound (s, toLowerASCII s, false) rfl
  intro ts
  induction ts with
  | nil =>
    intro _ st hst
    exact hst
  | cons t ts ih =>
    intro hts st hst
    obtain ⟨o, le, ev⟩ := st
    simp only at hst
    subst hst
    simp only [List.foldl_cons]
    apply ih (fun t' ht' => hts t' (List.mem_cons_of_mem t ht'))
    exact maskLoopEv_no_hit t (hts t (List.mem_cons_self t ts)).1
      (hts t (List.mem_cons_self t ts)).2 (le.length + 1) 0 o le

/-- C2 counterexample: in no run of the redaction does any blocklist match
include a position already masked with an asterisk — the lowercase search
buffer is masked in lockstep, so the claimed later-term match inside an
earlier masked span never happens for any input. -/
theorem masked_span_never_rematched :
    ¬ ∃ s : List Nat, rescanHitsMask s = true := by
  rintro ⟨s, hs⟩
  rw [rescanHitsMask_false s] at hs
  exact Bool.noConfusion hs

/-- C2 amended: the blocklist order is fixed; the search resumes right after
each match end; masked spans are rescanned by later terms but can never be
matched again (the lowercase buffer is masked in lockstep); term order still
matters because an earlier mask can prevent a later overlapping match. -/
theorem redact_order_contract :
    kBlockList = [bytes "nsfw", bytes "nude", bytes "nudity", bytes "porn",
      bytes "explicit", bytes "sexual", bytes "erotic"]
    ∧ (∀ fuel t pos out lower p, findFrom lower t pos = some p →
        maskLoop (fuel + 1) t pos out lower =
          maskLoop fuel t (p + t.length) (maskRange out p t.length)
            (maskRange lower p t.length))
    ∧ (∀ s : List Nat, rescanHitsMask s = false)
    ∧ stripNSFWMarkers (bytes "nudexplicit") = bytes "****xplicit"
    ∧ stripTokens [bytes "explicit", bytes "nude"] (bytes "nudexplicit")
        = bytes "nud********" := by
  refine ⟨rfl, ?_, rescanHitsMask_false, by decide, by decide⟩
  intro fuel t pos out lower p hf
  simp [maskLoop, hf]

/-- C3 counterexample: on Scenario A's input the aspect classifier returns
9:16 (the vertical/portrait rule fires first on "portrait"), not the claimed
16:9. -/
theorem scenario_a_aspect_not_16_9 :
    (buildScenePlanFromPrompt
        (bytes "A cinematic portrait, 16:9, soft lighting, rule of thirds")
        VCIGMode.TextToImage VCSafetyProfile.Safe VCQualityPreset.High).map
      (fun p => toStringAspect p.aspectRatio) ≠ Except.ok (bytes "16:9") := by
  decide

/-- C3 amended: Scenario A yields aspect_ratio 9:16 (portrait precedence),
lighting soft, composition rule-of-thirds and camera angle eye-level. -/
theorem scenario_a_classifications :
    (buildScenePlanFromPrompt
        (bytes "A cinematic portrait, 16:9, soft lighting, rule of thirds")
        VCIGMode.TextToImage VCSafetyProfile.Safe VCQualityPreset.High).map
      (fun p => (toStringAspect p.aspectRatio, toStringLighting p.colorLighting.lighting,
        toStringRule p.composition.rule, toStringAngle p.camera.angle)) =
    Except.ok (bytes "9:16", bytes "soft", bytes "rule-of-thirds", bytes "eye-level") := by
  decide

/-- C4 counterexample: on Scenario D's input the subject heuristic returns the
last non-stop-word token "9:16", not the claimed "dragon". -/
theorem scenario_d_subject_not_dragon :
    (buildScenePlanFromPrompt
        (bytes "close-up of a dragon in a foggy forest at night, anime style, 9:16")
        VCIGMode.TextToImage VCSafetyProfile.Safe VCQualityPreset.High).map
      (fun p => p.primarySubject.name) ≠ Except.ok (bytes "dragon") := by
  decide

/-- C4 amended: Scenario D yields camera close-up with depth of field, forest
environment, foggy weather, night, anime style, aspect 9:16, and subject name
"9:16" (the tokenizer keeps "9:16" as the last non-stop-word token). -/
theorem scenario_d_classifications :
    (buildScenePlanFromPrompt
        (bytes "close-up of a dragon in a foggy forest at night, anime style, 9:16")
        VCIGMode.TextToImage VCSafetyProfile.Safe VCQualityPreset.High).map
      (fun p => (toStringAngle p.camera.angle, p.camera.depthOfField)) =
        Except.ok (bytes "close-up", true)
    ∧ (buildScenePlanFromPrompt
        (bytes "close-up of a dragon in a foggy forest at night, anime style, 9:16")
        VCIGMode.TextToImage VCSafetyProfile.Safe VCQualityPreset.High).map
      (fun p => (p.background.environment, p.background.weather, p.background.timeOfDay)) =
        Except.ok (bytes "forest", bytes "foggy", bytes "night")
    ∧ (buildScenePlanFromPrompt
        (bytes "close-up of a dragon in a foggy forest at night, anime style, 9:16")
        VCIGMode.TextToImage VCSafetyProfile.Safe VCQualityPreset.High).map
      (fun p => (toStringStyle p.artStyle.style, toStringAspect p.aspectRatio)) =
        Except.ok (bytes "anime", bytes "9:16")
    ∧ (buildScenePlanFromPrompt
        (bytes "close-up of a dragon in a foggy forest at night, anime style, 9:16")
        VCIGMode.TextToImage VCSafetyProfile.Safe VCQualityPreset.High).map
      (fun p => p.primarySubject.name) = Except.ok (bytes "9:16") := by
  refine ⟨by decide, by decide, by decide, by decide⟩

lemma escByte_eq_spec (c : Nat) : escByte c = escByteSpec c := by
  unfold escByte escByteSpec
  split_ifs <;> first | rfl | omega

/-- C7: the serializer emits the canonical JSON object of the specification:
exact key order, the per-byte escaping table, boolean literals and the fixed
enum string tables. -/
theorem serializer_canonical (p : VCScenePlan) :
    serializeScenePlanToJSON p = serializeSpecJSON p
    ∧ ∀ c : Nat, escByte c = escByteSpec c := by
  have hf : escByte = escByteSpec := funext escByte_eq_spec
  have he : jsonEscape = jsonEscapeSpec := by
    funext l
    unfold jsonEscape jsonEscapeSpec
    rw [hf]
  have hs : serializeSubject = serializeSubjectSpec := by
    funext s
    unfold serializeSubject serializeSubjectSpec
    rw [he]
  constructor
  · unfold serializeScenePlanToJSON serializeSpecJSON
    rw [he, hs]
  · exact escByte_eq_spec


end vc_vlig
